import Mathlib

/-!
Verification of the identity resolution and caching subsystem of the
top-tipners leaderboard.  The definitions below are a shallow embedding of
`src/unnamed/part_016` (second revision, the `tipn_stakers` variant of
`cachedIdentityService.ts`), `src/src/utils/identity.ts` and
`src/src/utils/farcaster.ts`.  JavaScript numbers are modelled as `Int`
(timestamps are `Date.now()` millisecond values), JS `Map` objects as
association lists with set-overwrite semantics, nullable values as `Option`,
and the external providers / persistent store as explicit oracle parameters.
Asynchronous code is modelled by the JS event-loop semantics: an `async`
function runs synchronously up to its first `await`, so within one
`Promise.all` batch every `canMakeRequest` check executes before any
`recordRequest` runs.
-/

namespace TopTipners

/-! ### Configuration constants (RATE_LIMIT_CONFIG, part_016 lines 722-731) -/

def MAX_REQUESTS_PER_HOUR : Nat := 10

def MAX_BATCH_SIZE : Nat := 5

def CACHE_EXPIRY_HOURS : Nat := 24 * 7

/-- One hour in milliseconds, the rolling rate-limit window. -/
def HOUR_MS : Int := 60 * 60 * 1000

/-- The cache TTL in milliseconds (`CACHE_EXPIRY_HOURS * 60 * 60 * 1000`). -/
def CACHE_EXPIRY_MS : Int := (CACHE_EXPIRY_HOURS : Int) * 60 * 60 * 1000

/-! ### JavaScript helpers

Truthiness of JS strings (`""` and `null` are falsy) and `Map` semantics
(`set` overwrites in place, keeping insertion order). -/

/-- JS `a || b` on strings: `a` when nonempty, else `b`. -/
def jsOrStr (a b : String) : String := if a = "" then b else a

/-- JS `o || b` where `o` is a nullable string: falls to `b` on `null` or `""`. -/
def jsOrOptStr (o : Option String) (b : String) : String :=
  match o with
  | some s => if s = "" then b else s
  | none => b

/-- Truthiness normalisation of a nullable JS string: `null` and `""` are falsy. -/
def jsStr (o : Option String) : Option String :=
  match o with
  | some s => if s = "" then none else some s
  | none => none

/-- JS `s || null` on a string: `""` becomes `null`. -/
def jsOrStrNull (s : String) : Option String := if s = "" then none else some s

/-- JS `n || null` on a number: `0` becomes `null`. -/
def jsOrIntNull (n : Int) : Option Int := if n = 0 then none else some n

/-- JS `toLowerCase()` on an (ASCII) address: per-character lowering.  Defined
over the character list so that it reduces inside the kernel. -/
def toLowerStr (s : String) : String := ⟨s.data.map Char.toLower⟩

/-- JS `toUpperCase()`, the spelling variation used by the canonicalization
claim. -/
def toUpperStr (s : String) : String := ⟨s.data.map Char.toUpper⟩

/-- JS `` `${s.slice(0, 6)}...${s.slice(-4)}` ``, the truncated-address display
form (slices of UTF-16 code units coincide with character slices on ASCII
addresses). -/
def truncAddr (s : String) : String :=
  ⟨s.data.take 6 ++ "...".data ++ s.data.drop (s.data.length - 4)⟩

/-- JS `Array.prototype.slice(m)` with a possibly negative index:
a negative `m` counts from the end of the array. -/
def jsSliceFrom {α : Type} (l : List α) (m : Int) : List α :=
  if m < 0 then l.drop ((l.length : Int) + m).toNat else l.drop m.toNat

/-- JS `Map.prototype.set`: overwrite the value in place when the key exists,
otherwise append the new entry. -/
def jsMapSet {α : Type} (m : List (String × α)) (k : String) (v : α) :
    List (String × α) :=
  if m.any (fun p => p.1 = k) then
    m.map (fun p => if p.1 = k then (k, v) else p)
  else
    m ++ [(k, v)]

/-- JS `Map.prototype.get` (`some v` when the map has the key). -/
def jsMapGet {α : Type} (m : List (String × α)) (k : String) : Option α :=
  (m.find? (fun p => p.1 = k)).map Prod.snd

/-- The keys of an association-list map, in insertion order. -/
def keysOf {α : Type} (m : List (String × α)) : List String := m.map Prod.fst

/-! ### Rate limiter (part_016 lines 734-768) -/

/-- The `RateLimiter` class: a process-lifetime list of request timestamps. -/
structure RateLimiter where
  requestTimes : List Int
deriving DecidableEq, Repr

/-- The purge performed by `canMakeRequest` / `getRequestCount`:
`this.requestTimes.filter(time => time > oneHourAgo)`. -/
def purgeTimes (now : Int) (times : List Int) : List Int :=
  times.filter (fun t => now - HOUR_MS < t)

/-- `canMakeRequest()`: purge timestamps older than one hour, then compare the
count against the ceiling.  Returns the answer together with the mutated state. -/
def RateLimiter.canMakeRequest (rl : RateLimiter) (now : Int) :
    Bool × RateLimiter :=
  let purged := purgeTimes now rl.requestTimes
  (decide (purged.length < MAX_REQUESTS_PER_HOUR), ⟨purged⟩)

/-- `recordRequest()`: push the current time (no purge, no check). -/
def RateLimiter.recordRequest (rl : RateLimiter) (now : Int) : RateLimiter :=
  ⟨rl.requestTimes ++ [now]⟩

/-- `getRequestCount()`: purge, then return the current in-window count
together with the mutated state. -/
def RateLimiter.getRequestCount (rl : RateLimiter) (now : Int) :
    Nat × RateLimiter :=
  let purged := purgeTimes now rl.requestTimes
  (purged.length, ⟨purged⟩)

/-- The number of recorded usage timestamps lying within the trailing hour:
the quantity bounded by the spec's rate-limit invariant. -/
def inWindowCount (now : Int) (rl : RateLimiter) : Nat :=
  (purgeTimes now rl.requestTimes).length

/-! ### Data model -/

/-- `FarcasterUser` (farcaster.ts): the social-provider fragment.  The adapter
fills every field (`display_name || username`, `pfp_url || ''`, ...), so all
fields are plain values here. -/
structure FarcasterUser where
  fid : Int
  username : String
  displayName : String
  pfpUrl : String
  bio : String
  followerCount : Int
  followingCount : Int
  verifiedAddresses : List String
deriving DecidableEq, Repr

/-- The result of `resolveName` (ens.ts): the two name-service lookups. -/
structure EnsData where
  ens : Option String
  basename : Option String
deriving DecidableEq, Repr

/-- `CachedIdentity` (part_016 lines 774-790): a row of the unified
`tipn_stakers` table.  The ISO `identity_last_updated` string is modelled by
its parsed millisecond value; `none` models a NULL / falsy column. -/
structure CachedIdentity where
  address : String
  fid : Option Int
  farcaster_username : Option String
  farcaster_display_name : Option String
  farcaster_pfp_url : Option String
  farcaster_bio : Option String
  farcaster_follower_count : Int
  farcaster_following_count : Int
  ens_name : Option String
  basename : Option String
  has_verified_identity : Bool
  identity_type : String
  display_name : Option String
  profile_url : Option String
  identity_last_updated : Option Int
deriving DecidableEq, Repr

/-- The `farcaster` sub-object of a `DisplayIdentity`.  `fid` stays optional:
the code reads it with a non-null assertion (`cached.fid!`) that merely casts. -/
structure DisplayFarcaster where
  fid : Option Int
  username : String
  displayName : String
  pfpUrl : String
  bio : String
  followerCount : Int
  followingCount : Int
deriving DecidableEq, Repr

/-- `DisplayIdentity` (part_016 lines 793-811): the resolved identity served to
the presentation layer.  `identityType` ranges over `"farcaster"`,
`"basename"`, `"ens"`, `"address"`. -/
structure DisplayIdentity where
  address : String
  farcaster : Option DisplayFarcaster
  ens : Option String
  basename : Option String
  displayName : String
  displayAvatar : Option String
  profileUrl : Option String
  hasVerifiedIdentity : Bool
  identityType : String
deriving DecidableEq, Repr

/-! ### Cache freshness (part_016 lines 814-820 and 1140) -/

/-- `isCacheExpired(lastUpdated)`: `(now - cacheTime) > expiryTime`. -/
def isCacheExpired (now lastUpdated : Int) : Bool :=
  decide (now - lastUpdated > CACHE_EXPIRY_MS)

/-- The guard `cachedIdentity && cachedIdentity.identity_last_updated &&
!isCacheExpired(cachedIdentity.identity_last_updated)` shared by
`getIdentityWithCache` (line 1071) and the batch partition (line 1140). -/
def isFreshRecord (now : Int) (c : Option CachedIdentity) : Bool :=
  match c with
  | some ci =>
    match ci.identity_last_updated with
    | some t => !(isCacheExpired now t)
    | none => false
  | none => false

/-! ### fetchFreshIdentity (part_016 lines 916-1013)

The two provider calls are issued with `.catch(() => null)` /
`.catch(() => ({ens: null, basename: null, display: null}))`, so each
provider outcome is an `Option` (or `EnsData`) oracle value and the inner
`try` cannot reject; `saveCachedIdentity` swallows store errors internally
and the store write does not feed back into this call, so it is not
tracked.  The only throw is the rate-limit rejection. -/

/-- The fresh `CachedIdentity` record built at lines 938-980 once the
rate-limit check has passed: priority selection Farcaster → Basename → ENS →
address, then the unified-table row. -/
def mkFreshRecord (now : Int) (address : String)
    (farcasterUser : Option FarcasterUser) (ensData : EnsData) :
    CachedIdentity :=
  let sel : String × String × Option String × Bool :=
    match farcasterUser with
    | some u =>
      (jsOrStr u.displayName ("@" ++ u.username), "farcaster",
        some ("https://warpcast.com/" ++ u.username), true)
    | none =>
      match jsStr ensData.basename with
      | some b => (b, "basename", none, true)
      | none =>
        match jsStr ensData.ens with
        | some e => (e, "ens", none, true)
        | none => (truncAddr address, "address", none, false)
  { address := toLowerStr address
    fid := match farcasterUser with | some u => jsOrIntNull u.fid | none => none
    farcaster_username :=
      match farcasterUser with | some u => jsOrStrNull u.username | none => none
    farcaster_display_name :=
      match farcasterUser with | some u => jsOrStrNull u.displayName | none => none
    farcaster_pfp_url :=
      match farcasterUser with | some u => jsOrStrNull u.pfpUrl | none => none
    farcaster_bio :=
      match farcasterUser with | some u => jsOrStrNull u.bio | none => none
    farcaster_follower_count :=
      match farcasterUser with | some u => u.followerCount | none => 0
    farcaster_following_count :=
      match farcasterUser with | some u => u.followingCount | none => 0
    ens_name := ensData.ens
    basename := ensData.basename
    has_verified_identity := sel.2.2.2
    identity_type := sel.2.1
    display_name := some sel.1
    profile_url := sel.2.2.1
    identity_last_updated := some now }

/-- `fetchFreshIdentity(address)`: check the rate limit (throwing on
exhaustion), issue both provider lookups, record usage only when the
Farcaster lookup returned a user, build and return the fresh record. -/
def fetchFreshIdentity (now : Int) (address : String)
    (farcasterUser : Option FarcasterUser) (ensData : EnsData)
    (rl : RateLimiter) : Except Unit CachedIdentity × RateLimiter :=
  let check := rl.canMakeRequest now
  if check.1 then
    let rl2 := if farcasterUser.isSome then check.2.recordRequest now else check.2
    (Except.ok (mkFreshRecord now address farcasterUser ensData), rl2)
  else
    (Except.error (), check.2)

/-! ### convertToDisplayIdentity (part_016 lines 1016-1060) -/

/-- `convertToDisplayIdentity(cached)`: rebuild the Farcaster sub-object from
the row (guarded by the truthiness of `farcaster_username`), re-derive the
display name and kind by priority, and copy `has_verified_identity` and
`profile_url` straight from the row. -/
def convertToDisplayIdentity (cached : CachedIdentity) : DisplayIdentity :=
  let farcaster : Option DisplayFarcaster :=
    match jsStr cached.farcaster_username with
    | some uname =>
      some { fid := cached.fid
             username := uname
             displayName := jsOrOptStr cached.farcaster_display_name uname
             pfpUrl := jsOrOptStr cached.farcaster_pfp_url ""
             bio := jsOrOptStr cached.farcaster_bio ""
             followerCount := cached.farcaster_follower_count
             followingCount := cached.farcaster_following_count }
    | none => none
  let sel : String × Option String × String :=
    match farcaster with
    | some f => (f.displayName, some f.pfpUrl, "farcaster")
    | none =>
      match jsStr cached.basename with
      | some b => (b, none, "basename")
      | none =>
        match jsStr cached.ens_name with
        | some e => (e, none, "ens")
        | none =>
          (jsOrOptStr cached.display_name (truncAddr cached.address), none,
            "address")
  { address := cached.address
    farcaster := farcaster
    ens := cached.ens_name
    basename := cached.basename
    displayName := sel.1
    displayAvatar := sel.2.1
    profileUrl := cached.profile_url
    hasVerifiedIdentity := cached.has_verified_identity
    identityType := sel.2.2 }

/-- The synthesized default identity returned by the rate-limited-no-cache
branch (lines 1091-1101), the outer catch (lines 1108-1118) and the batch
fallbacks (lines 1181-1191, 1215-1225): the `address` field holds the
normalized address while `displayName` slices the string the branch has in
scope (the raw caller argument in `getIdentityWithCache`). -/
def basicFallbackIdentity (rawAddress normalizedAddress : String) :
    DisplayIdentity :=
  { address := normalizedAddress
    farcaster := none
    ens := none
    basename := none
    displayName := truncAddr rawAddress
    displayAvatar := none
    profileUrl := none
    hasVerifiedIdentity := false
    identityType := "address" }

/-! ### getIdentityWithCache (part_016 lines 1063-1120)

The store is the oracle `store : String → Option CachedIdentity`
(`loadCachedIdentities` catches all store errors and degrades missing or
failed rows to `none`); the provider oracles are keyed by the queried
address.  The outer `catch` (line 1104) is reachable in the model only
through the rate-limit throw of `fetchFreshIdentity`, which the preceding
`canMakeRequest` guard makes impossible, but it is kept for faithfulness. -/

def getIdentityWithCache (now : Int) (address : String)
    (store : String → Option CachedIdentity)
    (fcEnv : String → Option FarcasterUser) (ensEnv : String → EnsData)
    (rl : RateLimiter) : DisplayIdentity × RateLimiter :=
  let normalizedAddress := toLowerStr address
  let cachedIdentity := store normalizedAddress
  if isFreshRecord now cachedIdentity then
    match cachedIdentity with
    | some ci => (convertToDisplayIdentity ci, rl)
    | none => (basicFallbackIdentity address normalizedAddress, rl)
  else
    let check := rl.canMakeRequest now
    if check.1 then
      let fr := fetchFreshIdentity now normalizedAddress
        (fcEnv normalizedAddress) (ensEnv normalizedAddress) check.2
      match fr.1 with
      | Except.ok freshIdentity => (convertToDisplayIdentity freshIdentity, fr.2)
      | Except.error _ => (basicFallbackIdentity address normalizedAddress, fr.2)
    else
      match cachedIdentity with
      | some ci => (convertToDisplayIdentity ci, check.2)
      | none => (basicFallbackIdentity address normalizedAddress, check.2)

/-! ### batchGetIdentitiesWithCache (part_016 lines 1123-1254)

The per-chunk `Promise` batch is modelled by the event-loop order: every
task's synchronous prefix (the `canMakeRequest` check inside
`fetchFreshIdentity`) runs before any task's continuation (the
`recordRequest` after the awaited provider calls), and all operations of one
call share a single `Date.now()` instant.  The `for` loop header
`for (i = 0; i < maxFreshRequests; i += MAX_BATCH_SIZE)` is modelled by the
list of batch start indices. -/

/-- The lowercased input list (`addresses.map(addr => addr.toLowerCase())`). -/
def normalizedOf (addresses : List String) : List String :=
  addresses.map toLowerStr

/-- The needs-refresh partition of the batch (lines 1137-1145). -/
def needsFreshOf (now : Int) (store : String → Option CachedIdentity)
    (normalized : List String) : List String :=
  normalized.filter (fun a => !(isFreshRecord now (store a)))

/-- The cache-fresh partition of the batch (lines 1137-1145). -/
def canUseCachedOf (now : Int) (store : String → Option CachedIdentity)
    (normalized : List String) : List String :=
  normalized.filter (fun a => isFreshRecord now (store a))

/-- State threaded through a batch call: the results map, the shared rate
limiter, and (as instrumentation) the addresses that received a live
provider refresh attempt. -/
structure BatchState where
  results : List (String × DisplayIdentity)
  limiter : RateLimiter
  attempted : List String
deriving DecidableEq, Repr

/-- Serving one cache-fresh address (lines 1150-1153).  The `none` branch is
unreachable: membership in `canUseCached` forces a stored record. -/
def cacheServeStep (store : String → Option CachedIdentity)
    (m : List (String × DisplayIdentity)) (a : String) :
    List (String × DisplayIdentity) :=
  match store a with
  | some ci => jsMapSet m a (convertToDisplayIdentity ci)
  | none => m

/-- Serving one address from stale cache or the default identity — the code
shared by the rate-limit catch inside a batch task (lines 1176-1192) and the
`remaining` loop (lines 1208-1227). -/
def staleOrDefaultStep (store : String → Option CachedIdentity)
    (st : BatchState) (a : String) : BatchState :=
  match store a with
  | some ci =>
    { st with results := jsMapSet st.results a (convertToDisplayIdentity ci) }
  | none =>
    { st with results := jsMapSet st.results a (basicFallbackIdentity a a) }

/-- Phase 1 of one concurrent chunk: the synchronous prefixes of the batch
tasks run in order, each performing the `canMakeRequest` check of its
`fetchFreshIdentity` call before any task records usage. -/
def batchChecks (now : Int) : List String → RateLimiter →
    List (String × Bool) × RateLimiter
  | [], rl => ([], rl)
  | a :: rest, rl =>
    let check := rl.canMakeRequest now
    let tail := batchChecks now rest check.2
    ((a, check.1) :: tail.1, tail.2)

/-- Phase 2 of one concurrent chunk: each task resumes after its provider
calls settle.  A task whose check passed records usage when the Farcaster
lookup returned a user and stores the converted fresh record; a task whose
check failed saw `fetchFreshIdentity` throw and falls back to stale cache or
the default identity. -/
def batchSettle (now : Int) (store : String → Option CachedIdentity)
    (fcEnv : String → Option FarcasterUser) (ensEnv : String → EnsData) :
    List (String × Bool) → BatchState → BatchState
  | [], st => st
  | (a, ok) :: rest, st =>
    let st2 :=
      if ok then
        let fc := fcEnv a
        { results := jsMapSet st.results a
            (convertToDisplayIdentity (mkFreshRecord now a fc (ensEnv a)))
          limiter := if fc.isSome then st.limiter.recordRequest now else st.limiter
          attempted := st.attempted ++ [a] }
      else
        staleOrDefaultStep store st a
    batchSettle now store fcEnv ensEnv rest st2

/-- One chunk of the fresh-fetch loop (lines 1165-1203). -/
def runBatch (now : Int) (store : String → Option CachedIdentity)
    (fcEnv : String → Option FarcasterUser) (ensEnv : String → EnsData)
    (batch : List String) (st : BatchState) : BatchState :=
  let checks := batchChecks now batch st.limiter
  batchSettle now store fcEnv ensEnv checks.1 { st with limiter := checks.2 }

/-- The iteration indices of `for (i = 0; i < maxFresh; i += MAX_BATCH_SIZE)`. -/
def batchStarts (maxFresh : Nat) : List Nat :=
  (List.range maxFresh).filter (fun i => i % MAX_BATCH_SIZE = 0)

/-- `maxFreshRequests = Math.min(needsFresh.length,
MAX_REQUESTS_PER_HOUR - rateLimiter.getRequestCount())` (lines 1156-1159);
negative when the in-window count already exceeds the ceiling. -/
def batchMaxFresh (now : Int) (store : String → Option CachedIdentity)
    (normalized : List String) (rl : RateLimiter) : Int :=
  min ((needsFreshOf now store normalized).length : Int)
    ((MAX_REQUESTS_PER_HOUR : Int) - ((rl.getRequestCount now).1 : Int))

/-- The state after the cache-fresh entries were served (lines 1150-1153):
the single `getRequestCount()` call has purged the limiter and no refresh
was attempted yet. -/
def batchInitialState (now : Int) (store : String → Option CachedIdentity)
    (normalized : List String) (rl : RateLimiter) : BatchState :=
  { results := (canUseCachedOf now store normalized).foldl (cacheServeStep store) []
    limiter := (rl.getRequestCount now).2
    attempted := [] }

/-- The fresh-fetch loop (lines 1161-1204): when `maxFreshRequests > 0`, run
one concurrent chunk per start index; the chunk at start `i` is
`needsFresh.slice(i, i + MAX_BATCH_SIZE)`, sliced from the FULL needs-refresh
list. -/
def batchFreshPhase (now : Int) (store : String → Option CachedIdentity)
    (fcEnv : String → Option FarcasterUser) (ensEnv : String → EnsData)
    (needsFresh : List String) (maxFresh : Int) (st : BatchState) : BatchState :=
  if 0 < maxFresh then
    (batchStarts maxFresh.toNat).foldl
      (fun st i =>
        runBatch now store fcEnv ensEnv
          ((needsFresh.drop i).take MAX_BATCH_SIZE) st)
      st
  else st

/-- `batchGetIdentitiesWithCache(addresses)`: load the cache, partition into
fresh and needs-refresh, serve the fresh entries, fetch the capped number of
refreshes in concurrent chunks of `MAX_BATCH_SIZE`, then serve
`needsFresh.slice(maxFreshRequests)` from stale cache or default
identities. -/
def batchGetIdentitiesWithCache (now : Int) (addresses : List String)
    (store : String → Option CachedIdentity)
    (fcEnv : String → Option FarcasterUser) (ensEnv : String → EnsData)
    (rl : RateLimiter) : BatchState :=
  let normalizedAddresses := normalizedOf addresses
  let needsFresh := needsFreshOf now store normalizedAddresses
  let maxFreshRequests := batchMaxFresh now store normalizedAddresses rl
  (jsSliceFrom needsFresh maxFreshRequests).foldl (staleOrDefaultStep store)
    (batchFreshPhase now store fcEnv ensEnv needsFresh maxFreshRequests
      (batchInitialState now store normalizedAddresses rl))

/-! ### resolveUserIdentity (identity.ts lines 23-82)

The pure priority-selection core, applied to the two awaited provider
results.  The surrounding per-process memo cache and the provider fetches
are environment. -/

/-- `UserIdentity` (identity.ts). -/
structure UserIdentity where
  address : String
  farcaster : Option FarcasterUser
  ens : Option String
  basename : Option String
  displayName : String
  displayAvatar : Option String
  profileUrl : Option String
  hasVerifiedIdentity : Bool
  identityType : String
deriving DecidableEq, Repr

/-- The body of `resolveUserIdentity` after both lookups settle (identity.ts
lines 38-80): fixed priority Farcaster → Basename → ENS → Address. -/
def resolveUserIdentityCore (address : String)
    (farcasterUser : Option FarcasterUser) (ensData : EnsData) : UserIdentity :=
  let sel : String × Option String × Option String × String × Bool :=
    match farcasterUser with
    | some u =>
      (jsOrStr u.displayName ("@" ++ u.username), some u.pfpUrl,
        some ("https://warpcast.com/" ++ u.username), "farcaster", true)
    | none =>
      match jsStr ensData.basename with
      | some b => (b, none, none, "basename", true)
      | none =>
        match jsStr ensData.ens with
        | some e => (e, none, none, "ens", true)
        | none => (truncAddr address, none, none, "address", false)
  { address := address
    farcaster := farcasterUser
    ens := ensData.ens
    basename := ensData.basename
    displayName := sel.1
    displayAvatar := sel.2.1
    profileUrl := sel.2.2.1
    hasVerifiedIdentity := sel.2.2.2.2
    identityType := sel.2.2.2.1 }

/-! ### getFarcasterUserByAddress (farcaster.ts lines 23-85)

The HTTP transport is the oracle `FetchOutcome`: a rejected fetch or JSON
parse, a non-2xx response (which the code turns into a thrown error), or a
parsed payload whose per-address entry is the (possibly empty) user list.
Every throw is caught and converted to `null`, so the embedding is a total
function returning `Option FarcasterUser` together with the mutated memo
cache. -/

inductive FetchOutcome where
  | networkError : FetchOutcome
  | httpError : FetchOutcome
  | payload : List FarcasterUser → FetchOutcome
deriving DecidableEq, Repr

def getFarcasterUserByAddress (apiKey : Option String)
    (cache : List (String × Option FarcasterUser)) (address : String)
    (outcome : FetchOutcome) :
    Option FarcasterUser × List (String × Option FarcasterUser) :=
  let cacheKey := "fc_" ++ toLowerStr address
  match jsMapGet cache cacheKey with
  | some v => (v, cache)
  | none =>
    match apiKey with
    | none => (none, jsMapSet cache cacheKey none)
    | some _ =>
      match outcome with
      | FetchOutcome.networkError => (none, jsMapSet cache cacheKey none)
      | FetchOutcome.httpError => (none, jsMapSet cache cacheKey none)
      | FetchOutcome.payload [] => (none, jsMapSet cache cacheKey none)
      | FetchOutcome.payload (u :: _) =>
        (some u, jsMapSet cache cacheKey (some u))

end TopTipners

namespace TopTipners

/-! ### Concrete scenario inputs used by the evaluation theorems -/

/-- A sample Farcaster user returned by the social provider. -/
def sampleUser : FarcasterUser := ⟨1, "alice", "Alice", "", "", 0, 0, []⟩

/-- A sample instant (milliseconds); any value larger than the window works. -/
def sampleNow : Int := 4000000

/-- A fresh cache row for address `a` written at `sampleNow`. -/
def sampleFreshRow (a : String) : CachedIdentity :=
  ⟨a, none, none, none, none, none, 0, 0, none, none, false, "address",
    some a, none, some sampleNow⟩

/-- The store holding fresh rows for `0xa1`, `0xa2`, `0xa3` only. -/
def sampleStore3 (a : String) : Option CachedIdentity :=
  if a = "0xa1" ∨ a = "0xa2" ∨ a = "0xa3" then some (sampleFreshRow a) else none

/-- An empty store: every address is a cache miss. -/
def emptyStore (_ : String) : Option CachedIdentity := none

/-- Provider oracles: every Farcaster lookup succeeds / fails; no names. -/
def allHitFc (_ : String) : Option FarcasterUser := some sampleUser

def allMissFc (_ : String) : Option FarcasterUser := none

def noNames (_ : String) : EnsData := ⟨none, none⟩

/-- A stored row whose `has_verified_identity` flag disagrees with its
fragments: no Farcaster, basename or ENS data, yet the flag is `true`. -/
def inconsistentRow : CachedIdentity :=
  ⟨"0xabc", none, none, none, none, none, 0, 0, none, none, true, "address",
    none, none, some 0⟩

/-- C1: the trailing-hour usage count can exceed `MAX_REQUESTS_PER_HOUR`.
With 6 in-window timestamps and five uncached addresses whose Farcaster
lookups all succeed, `maxFreshRequests = 4` but the chunk slice takes all
five addresses; every concurrent task passes its `canMakeRequest` check
before any task records, so all five record and the window holds 11
timestamps — the code violates the claimed invariant. -/
theorem c1_rate_cap_exceeded :
    MAX_REQUESTS_PER_HOUR <
      inWindowCount sampleNow
        (batchGetIdentitiesWithCache sampleNow
          ["0xa1", "0xa2", "0xa3", "0xa4", "0xa5"]
          emptyStore allHitFc noNames
          ⟨List.replicate 6 sampleNow⟩).limiter := by decide

/-- C2: in Scenario A (3 fresh-cached + 2 needs-refresh addresses, rate
capacity 1 remaining) the code issues live provider refresh attempts for
BOTH needs-refresh addresses, not exactly the first `maxAllowed = 1`: the
chunk is sliced from the full needs-refresh list and both concurrent tasks
pass the rate check.  The result map still has 5 entries. -/
theorem c2_scenarioA_two_live_attempts :
    (batchGetIdentitiesWithCache sampleNow
        ["0xa1", "0xa2", "0xa3", "0xa4", "0xa5"]
        sampleStore3 allMissFc noNames
        ⟨List.replicate 9 sampleNow⟩).attempted = ["0xa4", "0xa5"] ∧
    (batchGetIdentitiesWithCache sampleNow
        ["0xa1", "0xa2", "0xa3", "0xa4", "0xa5"]
        sampleStore3 allMissFc noNames
        ⟨List.replicate 9 sampleNow⟩).results.length = 5 := by decide

/-- C3 counterexample: once over-recording has left 11 in-window timestamps,
`maxFreshRequests = min(2, 10 - 11) = -1`, so `needsFresh.slice(-1)` keeps
only the last needs-refresh address and the batch result for
`["0xb1", "0xb2"]` contains a single entry — `0xb1` is dropped, refuting
batch totality as claimed. -/
theorem c3_totality_counterexample :
    "0xb1" ∈ normalizedOf ["0xb1", "0xb2"] ∧
    "0xb1" ∉ keysOf (batchGetIdentitiesWithCache sampleNow ["0xb1", "0xb2"]
        emptyStore allMissFc noNames
        ⟨List.replicate 11 sampleNow⟩).results ∧
    keysOf (batchGetIdentitiesWithCache sampleNow ["0xb1", "0xb2"]
        emptyStore allMissFc noNames
        ⟨List.replicate 11 sampleNow⟩).results = ["0xb2"] := by decide

/-- C5 counterexample: `convertToDisplayIdentity` copies the stored
`has_verified_identity` flag instead of recomputing it, so converting a row
with the flag set but no fragments yields `hasVerifiedIdentity = true`
together with `identityKind = address`, refuting the claimed invariant. -/
theorem c5_conversion_counterexample :
    (convertToDisplayIdentity inconsistentRow).hasVerifiedIdentity = true ∧
    (convertToDisplayIdentity inconsistentRow).identityType = "address" := by
  decide

/-- C6 counterexample: with no cache row and the rate limit exhausted,
`getIdentityWithCache` slices the RAW caller argument into the fallback
display name, so an uppercase input yields `"0XABCD...EF12"` rather than the
claimed slices of the canonical lowercase form. -/
theorem c6_uppercase_fallback_counterexample :
    (getIdentityWithCache sampleNow "0XABCDEF12" emptyStore allMissFc noNames
        ⟨List.replicate 10 sampleNow⟩).1.identityType = "address" ∧
    (getIdentityWithCache sampleNow "0XABCDEF12" emptyStore allMissFc noNames
        ⟨List.replicate 10 sampleNow⟩).1.displayName ≠
      truncAddr (toLowerStr "0XABCDEF12") := by decide

/-- C8 counterexample: resolving `"0xabcdef12"` and its uppercase form with
no cache row and the rate limit exhausted produces different
`ResolvedIdentity` values — the fallback display name slices the caller's
spelling — refuting the claimed identical results. -/
theorem c8_case_sensitivity_counterexample :
    toUpperStr "0xabcdef12" = "0XABCDEF12" ∧
    (getIdentityWithCache sampleNow "0xabcdef12" emptyStore allMissFc noNames
        ⟨List.replicate 10 sampleNow⟩).1 ≠
      (getIdentityWithCache sampleNow "0XABCDEF12" emptyStore allMissFc noNames
        ⟨List.replicate 10 sampleNow⟩).1 := by decide

/-- C10 counterexample: a `fetchFreshIdentity` call whose Farcaster lookup
returns `null` does NOT leave the usage-timestamp list unchanged — the
`canMakeRequest` check purges the out-of-window timestamp `0`. -/
theorem c10_purge_counterexample :
    (fetchFreshIdentity sampleNow "0xaa" none ⟨none, none⟩
        ⟨[0]⟩).2.requestTimes ≠ ([0] : List Int) := by decide

end TopTipners

namespace TopTipners

/-! ### Basic lemmas -/

/-- Purging is idempotent at a fixed instant. -/
theorem purgeTimes_idem (now : Int) (l : List Int) :
    purgeTimes now (purgeTimes now l) = purgeTimes now l := by
  simp [purgeTimes, List.filter_filter]

/-- A second `canMakeRequest` at the same instant answers the same and leaves
the state unchanged. -/
theorem canMakeRequest_stable (rl : RateLimiter) (now : Int) :
    (rl.canMakeRequest now).2.canMakeRequest now = rl.canMakeRequest now := by
  simp [RateLimiter.canMakeRequest, purgeTimes_idem]

/-- The truncated-address display string is never empty. -/
theorem truncAddr_ne_empty (s : String) : truncAddr s ≠ "" := by
  intro h
  have h2 := congrArg String.data h
  simp [truncAddr] at h2

/-- C10 (amended): a `fetchFreshIdentity` call whose Farcaster lookup yields
`null` adds no usage timestamp: the resulting timestamp list is exactly the
one-hour purge of the previous list (the only mutation is the purge inside
`canMakeRequest`), so the in-window count — the rate budget — is unchanged.
This holds whether the rate-limit check passes or throws. -/
theorem c10_no_budget_on_null_lookup (now : Int) (address : String)
    (ensData : EnsData) (rl : RateLimiter) :
    (fetchFreshIdentity now address none ensData rl).2.requestTimes =
        purgeTimes now rl.requestTimes ∧
    inWindowCount now (fetchFreshIdentity now address none ensData rl).2 =
        inWindowCount now rl := by
  unfold fetchFreshIdentity RateLimiter.canMakeRequest
  simp only [Option.isSome_none, Bool.false_eq_true, if_false]
  constructor
  · split <;> rfl
  · split <;> simp [inWindowCount, purgeTimes_idem]

/-- C4: the identity kind is chosen in fixed priority order, both in
`resolveUserIdentity` (identity.ts) and in `fetchFreshIdentity` (part_016):
a present social (Farcaster) fragment always yields kind `farcaster` with
the social display name, regardless of domain names; otherwise the domain
kinds are tried in fixed order (basename, then ENS, then the address-only
fallback); and exactly one of the four kinds is selected. -/
theorem c4_priority_determinism (now : Int) (address : String)
    (u : FarcasterUser) (fc : Option FarcasterUser) (ensA ensB : EnsData) :
    (resolveUserIdentityCore address (some u) ensA).identityType = "farcaster" ∧
    (resolveUserIdentityCore address (some u) ensA).displayName =
      jsOrStr u.displayName ("@" ++ u.username) ∧
    (resolveUserIdentityCore address none ensB).identityType =
      (if (jsStr ensB.basename).isSome then "basename"
       else if (jsStr ensB.ens).isSome then "ens" else "address") ∧
    (mkFreshRecord now address (some u) ensA).identity_type = "farcaster" ∧
    (mkFreshRecord now address none ensB).identity_type =
      (if (jsStr ensB.basename).isSome then "basename"
       else if (jsStr ensB.ens).isSome then "ens" else "address") ∧
    ((resolveUserIdentityCore address fc ensA).identityType = "farcaster" ∨
     (resolveUserIdentityCore address fc ensA).identityType = "basename" ∨
     (resolveUserIdentityCore address fc ensA).identityType = "ens" ∨
     (resolveUserIdentityCore address fc ensA).identityType = "address") := by
  refine ⟨rfl, rfl, ?_, rfl, ?_, ?_⟩
  · cases hb : jsStr ensB.basename <;> cases he : jsStr ensB.ens <;>
      simp [resolveUserIdentityCore, hb, he]
  · cases hb : jsStr ensB.basename <;> cases he : jsStr ensB.ens <;>
      simp [mkFreshRecord, hb, he]
  · cases fc with
    | none =>
      cases hb : jsStr ensA.basename <;> cases he : jsStr ensA.ens <;>
        simp [resolveUserIdentityCore, hb, he]
    | some v => simp [resolveUserIdentityCore]

/-- Truthiness of a null string. -/
theorem jsStr_none : jsStr none = none := rfl

/-- Conversion copies the stored verification flag verbatim. -/
theorem convert_hasVerified (cached : CachedIdentity) :
    (convertToDisplayIdentity cached).hasVerifiedIdentity =
      cached.has_verified_identity := rfl

/-- The converted kind is non-`address` exactly when some fragment column is
truthy. -/
theorem convert_kind_ne_address_iff (cached : CachedIdentity) :
    ((convertToDisplayIdentity cached).identityType ≠ "address") ↔
      ((jsStr cached.farcaster_username).isSome ||
        (jsStr cached.basename).isSome ||
        (jsStr cached.ens_name).isSome) = true := by
  cases hf : jsStr cached.farcaster_username <;>
    cases hb : jsStr cached.basename <;>
    cases he : jsStr cached.ens_name <;>
    simp [convertToDisplayIdentity, hf, hb, he]

end TopTipners

namespace TopTipners

/-- C5 (amended): the invariant `hasVerifiedIdentity == (identityKind !=
address-only)` holds for every identity produced by a fresh fetch (provided
a present social fragment carries a nonempty handle) and for every
synthesized fallback identity; for the conversion of a cached record it
holds exactly when the record's stored `has_verified_identity` flag agrees
with the truthiness of its fragment columns — conversion copies the stored
flag rather than recomputing it. -/
theorem c5_invariant_by_path (now : Int) (address raw norm : String)
    (u : FarcasterUser) (ensA ensB : EnsData) (cached : CachedIdentity)
    (hu : u.username ≠ "") :
    ((convertToDisplayIdentity (mkFreshRecord now address (some u) ensA)).hasVerifiedIdentity = true ↔
      (convertToDisplayIdentity (mkFreshRecord now address (some u) ensA)).identityType ≠ "address") ∧
    ((convertToDisplayIdentity (mkFreshRecord now address none ensB)).hasVerifiedIdentity = true ↔
      (convertToDisplayIdentity (mkFreshRecord now address none ensB)).identityType ≠ "address") ∧
    ((basicFallbackIdentity raw norm).hasVerifiedIdentity = true ↔
      (basicFallbackIdentity raw norm).identityType ≠ "address") ∧
    (((convertToDisplayIdentity cached).hasVerifiedIdentity = true ↔
      (convertToDisplayIdentity cached).identityType ≠ "address") ↔
      cached.has_verified_identity =
        ((jsStr cached.farcaster_username).isSome ||
          (jsStr cached.basename).isSome ||
          (jsStr cached.ens_name).isSome)) := by
  refine ⟨?_, ?_, by simp [basicFallbackIdentity], ?_⟩
  · rw [convert_hasVerified, convert_kind_ne_address_iff]
    simp [mkFreshRecord, jsOrStrNull, jsStr, hu]
  · rw [convert_hasVerified, convert_kind_ne_address_iff]
    cases hb : jsStr ensB.basename <;> cases he : jsStr ensB.ens <;>
      simp [mkFreshRecord, jsStr_none, hb, he]
  · rw [convert_hasVerified, convert_kind_ne_address_iff]
    cases hflag : cached.has_verified_identity <;>
      cases hB : ((jsStr cached.farcaster_username).isSome ||
        (jsStr cached.basename).isSome || (jsStr cached.ens_name).isSome) <;>
      simp [hflag, hB]

/-- Witness for C5: the amended invariant instantiated at concrete inputs. -/
theorem c5_invariant_by_path_witness :
    sampleUser.username ≠ "" ∧
    (((convertToDisplayIdentity (mkFreshRecord 1 "0xaa" (some sampleUser) ⟨none, none⟩)).hasVerifiedIdentity = true ↔
      (convertToDisplayIdentity (mkFreshRecord 1 "0xaa" (some sampleUser) ⟨none, none⟩)).identityType ≠ "address") ∧
    ((convertToDisplayIdentity (mkFreshRecord 1 "0xaa" none ⟨some "e.eth", none⟩)).hasVerifiedIdentity = true ↔
      (convertToDisplayIdentity (mkFreshRecord 1 "0xaa" none ⟨some "e.eth", none⟩)).identityType ≠ "address") ∧
    ((basicFallbackIdentity "0xbb" "0xcc").hasVerifiedIdentity = true ↔
      (basicFallbackIdentity "0xbb" "0xcc").identityType ≠ "address") ∧
    (((convertToDisplayIdentity (sampleFreshRow "0xa1")).hasVerifiedIdentity = true ↔
      (convertToDisplayIdentity (sampleFreshRow "0xa1")).identityType ≠ "address") ↔
      (sampleFreshRow "0xa1").has_verified_identity =
        ((jsStr (sampleFreshRow "0xa1").farcaster_username).isSome ||
          (jsStr (sampleFreshRow "0xa1").basename).isSome ||
          (jsStr (sampleFreshRow "0xa1").ens_name).isSome))) :=
  ⟨by decide,
    c5_invariant_by_path 1 "0xaa" "0xbb" "0xcc" sampleUser ⟨none, none⟩
      ⟨some "e.eth", none⟩ (sampleFreshRow "0xa1") (by decide)⟩

/-- C9: the social provider adapter never surfaces an error (its embedding is
a total function): with no API key configured it returns `null` for every
address and every transport outcome, and under every failure mode (transport
error, non-2xx response, absent or empty per-address payload) it also
returns `null` — provided the memo cache holds no previously stored user,
as is the case in any run where lookups have only ever failed. -/
theorem c9_adapter_null_on_failure (apiKey : Option String) (address : String)
    (cache : List (String × Option FarcasterUser)) (outcome : FetchOutcome)
    (hcache : cache.all (fun p => p.2 = none) = true)
    (hfail : apiKey = none ∨ outcome = FetchOutcome.networkError ∨
      outcome = FetchOutcome.httpError ∨ outcome = FetchOutcome.payload []) :
    (getFarcasterUserByAddress apiKey cache address outcome).1 = none := by
  unfold getFarcasterUserByAddress
  cases hg : jsMapGet cache ("fc_" ++ toLowerStr address) with
  | some v =>
    have hv : v = none := by
      unfold jsMapGet at hg
      rcases Option.map_eq_some'.1 hg with ⟨p, hp, hpv⟩
      have hmem := List.mem_of_find?_eq_some hp
      have := (List.all_eq_true.1 hcache) p hmem
      simp at this
      rw [← hpv, this]
    simp [hg, hv]
  | none =>
    rcases hfail with h | h | h | h
    · subst h; simp [hg]
    · subst h; cases apiKey <;> simp [hg]
    · subst h; cases apiKey <;> simp [hg]
    · subst h; cases apiKey <;> simp [hg]

/-- Witness for C9: a no-key lookup returns `null` even when the transport
would have produced a user. -/
theorem c9_adapter_null_on_failure_witness :
    (([] : List (String × Option FarcasterUser)).all (fun p => p.2 = none) = true) ∧
    (getFarcasterUserByAddress none [] "0xAB"
      (FetchOutcome.payload [sampleUser])).1 = none :=
  ⟨by decide,
    c9_adapter_null_on_failure none "0xAB" [] (FetchOutcome.payload [sampleUser])
      (by decide) (Or.inl rfl)⟩

end TopTipners

namespace TopTipners

/-- C6 (amended): for an address with no cached row and no fragments found
(both providers return nothing), `getIdentityWithCache` yields
`hasVerifiedIdentity = false`, `identityKind = address`, and a display name
`first6 ++ "..." ++ last4` sliced either from the canonical lowercase
address (fresh-fetch path) or from the caller's spelling (rate-limited
fallback path); whenever the caller supplies the address already in
canonical lowercase form — as every in-repo caller of the batch path does —
the display name is exactly the canonical-lowercase slices, as claimed. -/
theorem c6_fallback_completeness (now : Int) (address : String)
    (store : String → Option CachedIdentity)
    (fcEnv : String → Option FarcasterUser) (ensEnv : String → EnsData)
    (rl : RateLimiter)
    (hmiss : store (toLowerStr address) = none)
    (hfc : fcEnv (toLowerStr address) = none)
    (hens : ensEnv (toLowerStr address) = ⟨none, none⟩) :
    (getIdentityWithCache now address store fcEnv ensEnv rl).1.hasVerifiedIdentity = false ∧
    (getIdentityWithCache now address store fcEnv ensEnv rl).1.identityType = "address" ∧
    ((getIdentityWithCache now address store fcEnv ensEnv rl).1.displayName =
        truncAddr (toLowerStr address) ∨
      (getIdentityWithCache now address store fcEnv ensEnv rl).1.displayName =
        truncAddr address) ∧
    (toLowerStr address = address →
      (getIdentityWithCache now address store fcEnv ensEnv rl).1.displayName =
        truncAddr (toLowerStr address)) := by
  have hne := truncAddr_ne_empty (toLowerStr address)
  simp only [getIdentityWithCache, hmiss, isFreshRecord, Bool.false_eq_true,
    if_false]
  cases hc : (rl.canMakeRequest now).1 with
  | false =>
    simp only [hc, Bool.false_eq_true, if_false]
    refine ⟨rfl, rfl, Or.inr rfl, fun h => ?_⟩
    show truncAddr address = truncAddr (toLowerStr address)
    rw [h]
  | true =>
    simp only [hc, if_true, fetchFreshIdentity, canMakeRequest_stable, hfc,
      hens, Option.isSome_none, Bool.false_eq_true, if_false]
    simp [convertToDisplayIdentity, mkFreshRecord, jsStr_none, jsOrOptStr, hne]

end TopTipners

namespace TopTipners

/-- Witness for C6: the amended fallback claim instantiated at an uppercase
address with an empty store, empty providers and an empty rate window. -/
theorem c6_fallback_completeness_witness :
    emptyStore (toLowerStr "0XABCDEF12") = none ∧
    ((getIdentityWithCache sampleNow "0XABCDEF12" emptyStore allMissFc noNames
        ⟨[]⟩).1.hasVerifiedIdentity = false ∧
     (getIdentityWithCache sampleNow "0XABCDEF12" emptyStore allMissFc noNames
        ⟨[]⟩).1.identityType = "address" ∧
     ((getIdentityWithCache sampleNow "0XABCDEF12" emptyStore allMissFc noNames
          ⟨[]⟩).1.displayName = truncAddr (toLowerStr "0XABCDEF12") ∨
       (getIdentityWithCache sampleNow "0XABCDEF12" emptyStore allMissFc noNames
          ⟨[]⟩).1.displayName = truncAddr "0XABCDEF12") ∧
     (toLowerStr "0XABCDEF12" = "0XABCDEF12" →
       (getIdentityWithCache sampleNow "0XABCDEF12" emptyStore allMissFc noNames
          ⟨[]⟩).1.displayName = truncAddr (toLowerStr "0XABCDEF12"))) :=
  ⟨rfl, c6_fallback_completeness sampleNow "0XABCDEF12" emptyStore allMissFc
    noNames ⟨[]⟩ rfl rfl rfl⟩

/-- C8 (amended): two spellings of the same address (e.g. `addr` and
`addr.toUpperCase()`) share the lowercase cache key, so resolving them leaves
the rate limiter in the same state and produces identical results whenever a
cached row exists or rate capacity allows a fresh fetch; in the remaining
case (no row and rate-limited) every field still agrees except `displayName`,
which slices the caller's spelling. -/
theorem c8_canonical_spellings (now : Int) (a1 a2 : String)
    (store : String → Option CachedIdentity)
    (fcEnv : String → Option FarcasterUser) (ensEnv : String → EnsData)
    (rl : RateLimiter) (h : toLowerStr a1 = toLowerStr a2) :
    (getIdentityWithCache now a1 store fcEnv ensEnv rl).2 =
      (getIdentityWithCache now a2 store fcEnv ensEnv rl).2 ∧
    (getIdentityWithCache now a1 store fcEnv ensEnv rl).1.address =
      (getIdentityWithCache now a2 store fcEnv ensEnv rl).1.address ∧
    (getIdentityWithCache now a1 store fcEnv ensEnv rl).1.farcaster =
      (getIdentityWithCache now a2 store fcEnv ensEnv rl).1.farcaster ∧
    (getIdentityWithCache now a1 store fcEnv ensEnv rl).1.ens =
      (getIdentityWithCache now a2 store fcEnv ensEnv rl).1.ens ∧
    (getIdentityWithCache now a1 store fcEnv ensEnv rl).1.basename =
      (getIdentityWithCache now a2 store fcEnv ensEnv rl).1.basename ∧
    (getIdentityWithCache now a1 store fcEnv ensEnv rl).1.displayAvatar =
      (getIdentityWithCache now a2 store fcEnv ensEnv rl).1.displayAvatar ∧
    (getIdentityWithCache now a1 store fcEnv ensEnv rl).1.profileUrl =
      (getIdentityWithCache now a2 store fcEnv ensEnv rl).1.profileUrl ∧
    (getIdentityWithCache now a1 store fcEnv ensEnv rl).1.hasVerifiedIdentity =
      (getIdentityWithCache now a2 store fcEnv ensEnv rl).1.hasVerifiedIdentity ∧
    (getIdentityWithCache now a1 store fcEnv ensEnv rl).1.identityType =
      (getIdentityWithCache now a2 store fcEnv ensEnv rl).1.identityType ∧
    (((store (toLowerStr a1)).isSome ∨ (rl.canMakeRequest now).1 = true) →
      (getIdentityWithCache now a1 store fcEnv ensEnv rl).1 =
        (getIdentityWithCache now a2 store fcEnv ensEnv rl).1) := by
  simp only [getIdentityWithCache, h]
  cases hf : isFreshRecord now (store (toLowerStr a2)) with
  | true =>
    simp only [hf, if_true]
    cases hs : store (toLowerStr a2) with
    | none => rw [hs] at hf; simp [isFreshRecord] at hf
    | some ci => simp [hs]
  | false =>
    simp only [hf, Bool.false_eq_true, if_false]
    cases hc : (rl.canMakeRequest now).1 with
    | true => simp [hc, fetchFreshIdentity, canMakeRequest_stable]
    | false =>
      simp only [hc, Bool.false_eq_true, if_false]
      cases hs : store (toLowerStr a2) with
      | some ci => simp [hs]
      | none => simp [hs, hc, basicFallbackIdentity]

/-- Witness for C8: the amended claim instantiated at a mixed-case pair with
an empty store and empty rate window (so the fresh-fetch branch applies and
the results are fully identical). -/
theorem c8_canonical_spellings_witness :
    toLowerStr "0xAb12" = toLowerStr "0XaB12" ∧
    ((getIdentityWithCache sampleNow "0xAb12" emptyStore allMissFc noNames
        ⟨[]⟩).2 =
      (getIdentityWithCache sampleNow "0XaB12" emptyStore allMissFc noNames
        ⟨[]⟩).2 ∧
     (getIdentityWithCache sampleNow "0xAb12" emptyStore allMissFc noNames
        ⟨[]⟩).1.address =
      (getIdentityWithCache sampleNow "0XaB12" emptyStore allMissFc noNames
        ⟨[]⟩).1.address ∧
     (getIdentityWithCache sampleNow "0xAb12" emptyStore allMissFc noNames
        ⟨[]⟩).1.farcaster =
      (getIdentityWithCache sampleNow "0XaB12" emptyStore allMissFc noNames
        ⟨[]⟩).1.farcaster ∧
     (getIdentityWithCache sampleNow "0xAb12" emptyStore allMissFc noNames
        ⟨[]⟩).1.ens =
      (getIdentityWithCache sampleNow "0XaB12" emptyStore allMissFc noNames
        ⟨[]⟩).1.ens ∧
     (getIdentityWithCache sampleNow "0xAb12" emptyStore allMissFc noNames
        ⟨[]⟩).1.basename =
      (getIdentityWithCache sampleNow "0XaB12" emptyStore allMissFc noNames
        ⟨[]⟩).1.basename ∧
     (getIdentityWithCache sampleNow "0xAb12" emptyStore allMissFc noNames
        ⟨[]⟩).1.displayAvatar =
      (getIdentityWithCache sampleNow "0XaB12" emptyStore allMissFc noNames
        ⟨[]⟩).1.displayAvatar ∧
     (getIdentityWithCache sampleNow "0xAb12" emptyStore allMissFc noNames
        ⟨[]⟩).1.profileUrl =
      (getIdentityWithCache sampleNow "0XaB12" emptyStore allMissFc noNames
        ⟨[]⟩).1.profileUrl ∧
     (getIdentityWithCache sampleNow "0xAb12" emptyStore allMissFc noNames
        ⟨[]⟩).1.hasVerifiedIdentity =
      (getIdentityWithCache sampleNow "0XaB12" emptyStore allMissFc noNames
        ⟨[]⟩).1.hasVerifiedIdentity ∧
     (getIdentityWithCache sampleNow "0xAb12" emptyStore allMissFc noNames
        ⟨[]⟩).1.identityType =
      (getIdentityWithCache sampleNow "0XaB12" emptyStore allMissFc noNames
        ⟨[]⟩).1.identityType ∧
     (((emptyStore (toLowerStr "0xAb12")).isSome ∨
         ((RateLimiter.mk []).canMakeRequest sampleNow).1 = true) →
       (getIdentityWithCache sampleNow "0xAb12" emptyStore allMissFc noNames
          ⟨[]⟩).1 =
        (getIdentityWithCache sampleNow "0XaB12" emptyStore allMissFc noNames
          ⟨[]⟩).1)) :=
  ⟨by decide, c8_canonical_spellings sampleNow "0xAb12" "0XaB12" emptyStore
    allMissFc noNames ⟨[]⟩ (by decide)⟩

end TopTipners

namespace TopTipners

/-! ### Association-list map lemmas -/

/-- `jsMapSet` keeps the key list when the key exists, else appends it. -/
theorem keysOf_jsMapSet_eq {α : Type} (m : List (String × α)) (k : String)
    (v : α) :
    keysOf (jsMapSet m k v) =
      if m.any (fun p => p.1 = k) then keysOf m else keysOf m ++ [k] := by
  unfold jsMapSet keysOf
  split
  · rw [List.map_map]
    refine List.map_congr_left ?_
    intro p _
    by_cases hp : p.1 = k
    · simp [hp]
    · simp [hp]
  · simp

/-- Membership in the keys after a `jsMapSet`. -/
theorem mem_keysOf_jsMapSet {α : Type} (m : List (String × α)) (k : String)
    (v : α) (a : String) :
    a ∈ keysOf (jsMapSet m k v) ↔ a ∈ keysOf m ∨ a = k := by
  rw [keysOf_jsMapSet_eq]
  split
  · rename_i hany
    have hk : k ∈ keysOf m := by
      rcases List.any_eq_true.1 hany with ⟨p, hp, hpk⟩
      simp only [decide_eq_true_eq] at hpk
      exact hpk ▸ List.mem_map_of_mem Prod.fst hp
    constructor
    · exact Or.inl
    · rintro (h | rfl)
      · exact h
      · exact hk
  · simp

/-- `jsMapSet` preserves key nodup-ness. -/
theorem nodup_keysOf_jsMapSet {α : Type} (m : List (String × α)) (k : String)
    (v : α) (h : (keysOf m).Nodup) : (keysOf (jsMapSet m k v)).Nodup := by
  rw [keysOf_jsMapSet_eq]
  split
  · exact h
  · rename_i hany
    have hk : k ∉ keysOf m := by
      intro hkm
      rcases List.mem_map.1 hkm with ⟨p, hp, hpk⟩
      exact hany (List.any_eq_true.2 ⟨p, hp, by simp [hpk]⟩)
    rw [List.nodup_append]
    refine ⟨h, List.nodup_singleton k, ?_⟩
    intro b hb hbk
    rw [List.mem_singleton.1 hbk] at hb
    exact hk hb

/-! ### Lemmas for the batch phases -/

/-- Keys after serving the cache-fresh addresses: exactly the served
addresses, provided each has a stored record (as every member of
`canUseCached` does). -/
theorem mem_keysOf_cacheServeFold (store : String → Option CachedIdentity)
    (l : List String) :
    ∀ (m : List (String × DisplayIdentity)) (a : String),
      (∀ x ∈ l, (store x).isSome = true) →
      (a ∈ keysOf (l.foldl (cacheServeStep store) m) ↔
        a ∈ keysOf m ∨ a ∈ l) := by
  induction l with
  | nil => intro m a _; simp
  | cons x xs ih =>
    intro m a hl
    simp only [List.foldl_cons]
    rcases Option.isSome_iff_exists.1 (hl x (List.mem_cons_self x xs)) with
      ⟨ci, hci⟩
    rw [ih _ a (fun y hy => hl y (List.mem_cons_of_mem x hy))]
    unfold cacheServeStep
    rw [hci, mem_keysOf_jsMapSet]
    simp only [List.mem_cons]
    tauto

/-- Cache serving preserves key nodup-ness. -/
theorem nodup_keysOf_cacheServeFold (store : String → Option CachedIdentity)
    (l : List String) :
    ∀ (m : List (String × DisplayIdentity)), (keysOf m).Nodup →
      (keysOf (l.foldl (cacheServeStep store) m)).Nodup := by
  induction l with
  | nil => intro m hm; exact hm
  | cons x xs ih =>
    intro m hm
    simp only [List.foldl_cons]
    refine ih _ ?_
    unfold cacheServeStep
    cases store x with
    | some ci => exact nodup_keysOf_jsMapSet m x _ hm
    | none => exact hm

/-- One stale-or-default step always sets exactly its address. -/
theorem mem_keysOf_staleStep (store : String → Option CachedIdentity)
    (st : BatchState) (x b : String) :
    b ∈ keysOf ((staleOrDefaultStep store st x).results) ↔
      b ∈ keysOf st.results ∨ b = x := by
  unfold staleOrDefaultStep
  cases store x with
  | some ci => exact mem_keysOf_jsMapSet st.results x _ b
  | none => exact mem_keysOf_jsMapSet st.results x _ b

/-- One stale-or-default step touches neither limiter nor attempted list. -/
theorem frame_staleStep (store : String → Option CachedIdentity)
    (st : BatchState) (x : String) :
    (staleOrDefaultStep store st x).limiter = st.limiter ∧
    (staleOrDefaultStep store st x).attempted = st.attempted := by
  unfold staleOrDefaultStep
  cases store x with
  | some ci => exact ⟨rfl, rfl⟩
  | none => exact ⟨rfl, rfl⟩

/-- One stale-or-default step preserves key nodup-ness. -/
theorem nodup_keysOf_staleStep (store : String → Option CachedIdentity)
    (st : BatchState) (x : String) (h : (keysOf st.results).Nodup) :
    (keysOf ((staleOrDefaultStep store st x).results)).Nodup := by
  unfold staleOrDefaultStep
  cases store x with
  | some ci => exact nodup_keysOf_jsMapSet st.results x _ h
  | none => exact nodup_keysOf_jsMapSet st.results x _ h

/-- Keys after the final stale-or-default loop. -/
theorem mem_keysOf_staleFold (store : String → Option CachedIdentity)
    (l : List String) :
    ∀ (st : BatchState) (a : String),
      a ∈ keysOf ((l.foldl (staleOrDefaultStep store) st).results) ↔
        a ∈ keysOf st.results ∨ a ∈ l := by
  induction l with
  | nil => intro st a; simp
  | cons x xs ih =>
    intro st a
    simp only [List.foldl_cons]
    rw [ih, mem_keysOf_staleStep]
    simp only [List.mem_cons]
    tauto

/-- The final loop preserves key nodup-ness. -/
theorem nodup_keysOf_staleFold (store : String → Option CachedIdentity)
    (l : List String) :
    ∀ (st : BatchState), (keysOf st.results).Nodup →
      (keysOf ((l.foldl (staleOrDefaultStep store) st).results)).Nodup := by
  induction l with
  | nil => intro st h; exact h
  | cons x xs ih =>
    intro st h
    simp only [List.foldl_cons]
    exact ih _ (nodup_keysOf_staleStep store st x h)

/-- The final loop touches neither limiter nor attempted list. -/
theorem frame_staleFold (store : String → Option CachedIdentity)
    (l : List String) :
    ∀ (st : BatchState),
      (l.foldl (staleOrDefaultStep store) st).limiter = st.limiter ∧
      (l.foldl (staleOrDefaultStep store) st).attempted = st.attempted := by
  induction l with
  | nil => intro st; exact ⟨rfl, rfl⟩
  | cons x xs ih =>
    intro st
    simp only [List.foldl_cons]
    rcases ih (staleOrDefaultStep store st x) with ⟨h1, h2⟩
    rcases frame_staleStep store st x with ⟨h3, h4⟩
    exact ⟨h1.trans h3, h2.trans h4⟩

/-- The addresses checked in phase 1 are exactly the chunk, in order. -/
theorem batchChecks_fst (now : Int) (l : List String) :
    ∀ rl : RateLimiter, (batchChecks now l rl).1.map Prod.fst = l := by
  induction l with
  | nil => intro rl; rfl
  | cons x xs ih =>
    intro rl
    simp only [batchChecks, List.map_cons]
    rw [ih]

/-- Keys after settling one chunk: each check stores a result for its
address, whether the check passed (fresh record) or failed (stale cache or
default identity). -/
theorem mem_keysOf_batchSettle (now : Int)
    (store : String → Option CachedIdentity)
    (fcEnv : String → Option FarcasterUser) (ensEnv : String → EnsData)
    (checks : List (String × Bool)) :
    ∀ (st : BatchState) (a : String),
      a ∈ keysOf ((batchSettle now store fcEnv ensEnv checks st).results) ↔
        a ∈ keysOf st.results ∨ a ∈ checks.map Prod.fst := by
  induction checks with
  | nil => intro st a; simp [batchSettle]
  | cons c rest ih =>
    obtain ⟨x, ok⟩ := c
    intro st a
    simp only [batchSettle]
    rw [ih]
    cases ok with
    | true =>
      rw [if_pos rfl]
      show a ∈ keysOf (jsMapSet st.results x _) ∨ _ ↔ _
      rw [mem_keysOf_jsMapSet]
      simp only [List.map_cons, List.mem_cons]
      tauto
    | false =>
      rw [if_neg (by simp)]
      rw [mem_keysOf_staleStep]
      simp only [List.map_cons, List.mem_cons]
      tauto

/-- Settling one chunk preserves key nodup-ness. -/
theorem nodup_keysOf_batchSettle (now : Int)
    (store : String → Option CachedIdentity)
    (fcEnv : String → Option FarcasterUser) (ensEnv : String → EnsData)
    (checks : List (String × Bool)) :
    ∀ (st : BatchState), (keysOf st.results).Nodup →
      (keysOf ((batchSettle now store fcEnv ensEnv checks st).results)).Nodup := by
  induction checks with
  | nil => intro st h; exact h
  | cons c rest ih =>
    obtain ⟨x, ok⟩ := c
    intro st h
    simp only [batchSettle]
    refine ih _ ?_
    cases ok with
    | true =>
      rw [if_pos rfl]
      exact nodup_keysOf_jsMapSet st.results x _ h
    | false =>
      rw [if_neg (by simp)]
      exact nodup_keysOf_staleStep store st x h

/-- Every address added to the attempted list while settling one chunk comes
from that chunk. -/
theorem mem_attempted_batchSettle (now : Int)
    (store : String → Option CachedIdentity)
    (fcEnv : String → Option FarcasterUser) (ensEnv : String → EnsData)
    (checks : List (String × Bool)) :
    ∀ (st : BatchState) (a : String),
      a ∈ (batchSettle now store fcEnv ensEnv checks st).attempted →
        a ∈ st.attempted ∨ a ∈ checks.map Prod.fst := by
  induction checks with
  | nil => intro st a h; exact Or.inl h
  | cons c rest ih =>
    obtain ⟨x, ok⟩ := c
    intro st a h
    simp only [batchSettle] at h
    cases ok with
    | true =>
      rw [if_pos rfl] at h
      rcases ih _ a h with h2 | h2
      · have h3 : a ∈ st.attempted ++ [x] := h2
        rcases List.mem_append.1 h3 with h4 | h4
        · exact Or.inl h4
        · simp only [List.map_cons, List.mem_cons]
          exact Or.inr (Or.inl (List.mem_singleton.1 h4))
      · simp only [List.map_cons, List.mem_cons]
        tauto
    | false =>
      rw [if_neg (by simp)] at h
      rcases ih _ a h with h2 | h2
      · rw [(frame_staleStep store st x).2] at h2
        exact Or.inl h2
      · simp only [List.map_cons, List.mem_cons]
        tauto

/-- Keys after one chunk run: the chunk's addresses are added. -/
theorem mem_keysOf_runBatch (now : Int)
    (store : String → Option CachedIdentity)
    (fcEnv : String → Option FarcasterUser) (ensEnv : String → EnsData)
    (batch : List String) (st : BatchState) (a : String) :
    a ∈ keysOf ((runBatch now store fcEnv ensEnv batch st).results) ↔
      a ∈ keysOf st.results ∨ a ∈ batch := by
  unfold runBatch
  rw [mem_keysOf_batchSettle, batchChecks_fst]

/-- One chunk run preserves key nodup-ness. -/
theorem nodup_keysOf_runBatch (now : Int)
    (store : String → Option CachedIdentity)
    (fcEnv : String → Option FarcasterUser) (ensEnv : String → EnsData)
    (batch : List String) (st : BatchState)
    (h : (keysOf st.results).Nodup) :
    (keysOf ((runBatch now store fcEnv ensEnv batch st).results)).Nodup := by
  unfold runBatch
  exact nodup_keysOf_batchSettle now store fcEnv ensEnv _ _ h

/-- Attempted addresses of one chunk run come from the chunk. -/
theorem mem_attempted_runBatch (now : Int)
    (store : String → Option CachedIdentity)
    (fcEnv : String → Option FarcasterUser) (ensEnv : String → EnsData)
    (batch : List String) (st : BatchState) (a : String)
    (h : a ∈ (runBatch now store fcEnv ensEnv batch st).attempted) :
    a ∈ st.attempted ∨ a ∈ batch := by
  unfold runBatch at h
  have := mem_attempted_batchSettle now store fcEnv ensEnv _ _ a h
  rwa [batchChecks_fst] at this

end TopTipners

namespace TopTipners

/-- Keys after the chunk loop: the union of the processed chunk slices. -/
theorem mem_keysOf_freshFold (now : Int)
    (store : String → Option CachedIdentity)
    (fcEnv : String → Option FarcasterUser) (ensEnv : String → EnsData)
    (needsFresh : List String) (starts : List Nat) :
    ∀ (st : BatchState) (a : String),
      a ∈ keysOf ((starts.foldl
          (fun st i =>
            runBatch now store fcEnv ensEnv
              ((needsFresh.drop i).take MAX_BATCH_SIZE) st) st).results) ↔
        a ∈ keysOf st.results ∨
          ∃ i ∈ starts, a ∈ (needsFresh.drop i).take MAX_BATCH_SIZE := by
  induction starts with
  | nil => intro st a; simp
  | cons s ss ih =>
    intro st a
    simp only [List.foldl_cons]
    rw [ih, mem_keysOf_runBatch]
    simp only [List.exists_mem_cons_iff]
    tauto

/-- The chunk loop preserves key nodup-ness. -/
theorem nodup_keysOf_freshFold (now : Int)
    (store : String → Option CachedIdentity)
    (fcEnv : String → Option FarcasterUser) (ensEnv : String → EnsData)
    (needsFresh : List String) (starts : List Nat) :
    ∀ (st : BatchState), (keysOf st.results).Nodup →
      (keysOf ((starts.foldl
          (fun st i =>
            runBatch now store fcEnv ensEnv
              ((needsFresh.drop i).take MAX_BATCH_SIZE) st) st).results)).Nodup := by
  induction starts with
  | nil => intro st h; exact h
  | cons s ss ih =>
    intro st h
    simp only [List.foldl_cons]
    exact ih _ (nodup_keysOf_runBatch now store fcEnv ensEnv _ st h)

/-- Attempted addresses of the chunk loop come from the chunk slices. -/
theorem mem_attempted_freshFold (now : Int)
    (store : String → Option CachedIdentity)
    (fcEnv : String → Option FarcasterUser) (ensEnv : String → EnsData)
    (needsFresh : List String) (starts : List Nat) :
    ∀ (st : BatchState) (a : String),
      a ∈ ((starts.foldl
          (fun st i =>
            runBatch now store fcEnv ensEnv
              ((needsFresh.drop i).take MAX_BATCH_SIZE) st) st).attempted) →
        a ∈ st.attempted ∨
          ∃ i ∈ starts, a ∈ (needsFresh.drop i).take MAX_BATCH_SIZE := by
  induction starts with
  | nil => intro st a h; exact Or.inl h
  | cons s ss ih =>
    intro st a h
    simp only [List.foldl_cons] at h
    rcases ih _ a h with h2 | h2
    · rcases mem_attempted_runBatch now store fcEnv ensEnv _ st a h2 with h3 | h3
      · exact Or.inl h3
      · exact Or.inr ⟨s, List.mem_cons_self s ss, h3⟩
    · rcases h2 with ⟨i, hi, hmem⟩
      exact Or.inr ⟨i, List.mem_cons_of_mem s hi, hmem⟩

/-- Keys added by the fresh phase. -/
theorem mem_keysOf_freshPhase (now : Int)
    (store : String → Option CachedIdentity)
    (fcEnv : String → Option FarcasterUser) (ensEnv : String → EnsData)
    (needsFresh : List String) (maxF : Int) (st : BatchState) (a : String) :
    a ∈ keysOf ((batchFreshPhase now store fcEnv ensEnv needsFresh maxF st).results) ↔
      a ∈ keysOf st.results ∨
        (0 < maxF ∧
          ∃ i ∈ batchStarts maxF.toNat,
            a ∈ (needsFresh.drop i).take MAX_BATCH_SIZE) := by
  unfold batchFreshPhase
  split
  · rename_i hpos
    rw [mem_keysOf_freshFold]
    simp [hpos]
  · rename_i hpos
    simp [hpos]

/-- The fresh phase preserves key nodup-ness. -/
theorem nodup_keysOf_freshPhase (now : Int)
    (store : String → Option CachedIdentity)
    (fcEnv : String → Option FarcasterUser) (ensEnv : String → EnsData)
    (needsFresh : List String) (maxF : Int) (st : BatchState)
    (h : (keysOf st.results).Nodup) :
    (keysOf ((batchFreshPhase now store fcEnv ensEnv needsFresh maxF st).results)).Nodup := by
  unfold batchFreshPhase
  split
  · exact nodup_keysOf_freshFold now store fcEnv ensEnv needsFresh _ st h
  · exact h

/-- Attempted addresses of the fresh phase come from the chunk slices. -/
theorem mem_attempted_freshPhase (now : Int)
    (store : String → Option CachedIdentity)
    (fcEnv : String → Option FarcasterUser) (ensEnv : String → EnsData)
    (needsFresh : List String) (maxF : Int) (st : BatchState) (a : String)
    (h : a ∈ (batchFreshPhase now store fcEnv ensEnv needsFresh maxF st).attempted) :
    a ∈ st.attempted ∨
      ∃ i ∈ batchStarts maxF.toNat,
        a ∈ (needsFresh.drop i).take MAX_BATCH_SIZE := by
  unfold batchFreshPhase at h
  by_cases hpos : 0 < maxF
  · rw [if_pos hpos] at h
    exact mem_attempted_freshFold now store fcEnv ensEnv needsFresh _ st a h
  · rw [if_neg hpos] at h
    exact Or.inl h

end TopTipners

namespace TopTipners

/-! ### Partition and coverage lemmas -/

/-- Membership in the needs-refresh partition. -/
theorem mem_needsFresh_iff (now : Int) (store : String → Option CachedIdentity)
    (normalized : List String) (a : String) :
    a ∈ needsFreshOf now store normalized ↔
      a ∈ normalized ∧ isFreshRecord now (store a) = false := by
  unfold needsFreshOf
  rw [List.mem_filter]
  simp

/-- Membership in the cache-fresh partition. -/
theorem mem_canUseCached_iff (now : Int)
    (store : String → Option CachedIdentity) (normalized : List String)
    (a : String) :
    a ∈ canUseCachedOf now store normalized ↔
      a ∈ normalized ∧ isFreshRecord now (store a) = true := by
  unfold canUseCachedOf
  rw [List.mem_filter]

/-- A fresh record exists. -/
theorem isFreshRecord_isSome (now : Int) (c : Option CachedIdentity)
    (h : isFreshRecord now c = true) : c.isSome = true := by
  cases c with
  | none => simp [isFreshRecord] at h
  | some ci => rfl

/-- Every index below `t` falls into the chunk starting at the next lower
multiple of `MAX_BATCH_SIZE`, so every element of `l.take t` lies in some
loop chunk. -/
theorem mem_take_batchStarts (l : List String) (t : Nat) (a : String)
    (ha : a ∈ l.take t) :
    ∃ i ∈ batchStarts t, a ∈ (l.drop i).take MAX_BATCH_SIZE := by
  rcases List.mem_iff_getElem.1 ha with ⟨j, hj, hget⟩
  rw [List.length_take] at hj
  have hjt : j < t := lt_of_lt_of_le hj (min_le_left _ _)
  have hjl : j < l.length := lt_of_lt_of_le hj (min_le_right _ _)
  rw [List.getElem_take] at hget
  have hq := Nat.div_add_mod j MAX_BATCH_SIZE
  have hmod : j % MAX_BATCH_SIZE < MAX_BATCH_SIZE :=
    Nat.mod_lt j (by norm_num [MAX_BATCH_SIZE])
  refine ⟨MAX_BATCH_SIZE * (j / MAX_BATCH_SIZE), ?_, ?_⟩
  · simp only [batchStarts, List.mem_filter, List.mem_range,
      decide_eq_true_eq]
    exact ⟨by omega, Nat.mul_mod_right _ _⟩
  · refine List.mem_iff_getElem.2
      ⟨j - MAX_BATCH_SIZE * (j / MAX_BATCH_SIZE), ?_, ?_⟩
    · rw [List.length_take, List.length_drop]
      omega
    · rw [List.getElem_take, List.getElem_drop]
      have hidx : MAX_BATCH_SIZE * (j / MAX_BATCH_SIZE) +
          (j - MAX_BATCH_SIZE * (j / MAX_BATCH_SIZE)) = j := by omega
      simp only [hidx]
      exact hget

/-- Unfolding of the batch entry point into its three phases. -/
theorem batchGet_eq (now : Int) (addresses : List String)
    (store : String → Option CachedIdentity)
    (fcEnv : String → Option FarcasterUser) (ensEnv : String → EnsData)
    (rl : RateLimiter) :
    batchGetIdentitiesWithCache now addresses store fcEnv ensEnv rl =
      (jsSliceFrom (needsFreshOf now store (normalizedOf addresses))
          (batchMaxFresh now store (normalizedOf addresses) rl)).foldl
        (staleOrDefaultStep store)
        (batchFreshPhase now store fcEnv ensEnv
          (needsFreshOf now store (normalizedOf addresses))
          (batchMaxFresh now store (normalizedOf addresses) rl)
          (batchInitialState now store (normalizedOf addresses) rl)) := rfl

/-- Every address that received a live refresh attempt was classified
needs-refresh. -/
theorem mem_attempted_batch (now : Int) (addresses : List String)
    (store : String → Option CachedIdentity)
    (fcEnv : String → Option FarcasterUser) (ensEnv : String → EnsData)
    (rl : RateLimiter) (a : String)
    (h : a ∈ (batchGetIdentitiesWithCache now addresses store fcEnv ensEnv
      rl).attempted) :
    a ∈ needsFreshOf now store (normalizedOf addresses) := by
  rw [batchGet_eq] at h
  rw [(frame_staleFold store _ _).2] at h
  rcases mem_attempted_freshPhase now store fcEnv ensEnv _ _ _ a h with
    h2 | ⟨i, _, hmem⟩
  · simp [batchInitialState] at h2
  · exact List.drop_subset _ _ (List.take_subset _ _ hmem)

end TopTipners

namespace TopTipners

/-- C3 (amended): provided the rate limiter's in-window count at the start of
the call does not exceed `MAX_REQUESTS_PER_HOUR` (true in every state the
limiter's own guards can produce; violated only after the concurrent
over-recording of the fresh-fetch loop), `batchGetIdentitiesWithCache`
returns a map with exactly one entry per distinct lowercased input address
(`normalizedOf addresses` is literally `addresses.map toLowerCase`): its key
list is duplicate-free and contains an address iff it is a lowercased input,
regardless of cache-load failures, provider failures, or rate-limit
exhaustion. -/
theorem c3_batch_totality (now : Int) (addresses : List String)
    (store : String → Option CachedIdentity)
    (fcEnv : String → Option FarcasterUser) (ensEnv : String → EnsData)
    (rl : RateLimiter) (a : String)
    (h : inWindowCount now rl ≤ MAX_REQUESTS_PER_HOUR) :
    (keysOf (batchGetIdentitiesWithCache now addresses store fcEnv ensEnv
      rl).results).Nodup ∧
    (a ∈ keysOf (batchGetIdentitiesWithCache now addresses store fcEnv ensEnv
        rl).results ↔
      a ∈ normalizedOf addresses) := by
  rw [batchGet_eq]
  have hcount : (rl.getRequestCount now).1 = inWindowCount now rl := rfl
  have hmF : 0 ≤ batchMaxFresh now store (normalizedOf addresses) rl := by
    unfold batchMaxFresh
    refine le_min (by positivity) ?_
    have h2 : ((rl.getRequestCount now).1 : Int) ≤
        (MAX_REQUESTS_PER_HOUR : Int) := by
      exact_mod_cast hcount ▸ h
    omega
  have hslice :
      jsSliceFrom (needsFreshOf now store (normalizedOf addresses))
          (batchMaxFresh now store (normalizedOf addresses) rl) =
        (needsFreshOf now store (normalizedOf addresses)).drop
          (batchMaxFresh now store (normalizedOf addresses) rl).toNat := by
    unfold jsSliceFrom
    rw [if_neg (not_lt.2 hmF)]
  have hinit : ∀ b : String,
      b ∈ keysOf (batchInitialState now store (normalizedOf addresses)
        rl).results ↔
        b ∈ canUseCachedOf now store (normalizedOf addresses) := by
    intro b
    have hyp : ∀ x ∈ canUseCachedOf now store (normalizedOf addresses),
        (store x).isSome = true := fun x hx =>
      isFreshRecord_isSome now (store x)
        ((mem_canUseCached_iff now store _ x).1 hx).2
    rw [show (batchInitialState now store (normalizedOf addresses) rl).results =
      (canUseCachedOf now store (normalizedOf addresses)).foldl
        (cacheServeStep store) [] from rfl]
    rw [mem_keysOf_cacheServeFold store _ [] b hyp]
    simp [keysOf]
  constructor
  · apply nodup_keysOf_staleFold
    apply nodup_keysOf_freshPhase
    exact nodup_keysOf_cacheServeFold store _ [] (by simp [keysOf])
  · rw [mem_keysOf_staleFold, mem_keysOf_freshPhase, hinit, hslice]
    constructor
    · rintro ((hc | ⟨hpos, i, hi, hmem⟩) | hr)
      · exact List.mem_of_mem_filter hc
      · exact List.mem_of_mem_filter
          (List.drop_subset _ _ (List.take_subset _ _ hmem))
      · exact List.mem_of_mem_filter (List.drop_subset _ _ hr)
    · intro ha
      by_cases hfr : isFreshRecord now (store a) = true
      · exact Or.inl (Or.inl
          ((mem_canUseCached_iff now store _ a).2 ⟨ha, hfr⟩))
      · have hnf2 : a ∈ needsFreshOf now store (normalizedOf addresses) :=
          (mem_needsFresh_iff now store _ a).2
            ⟨ha, by simpa using hfr⟩
        have hsplit := List.take_append_drop
          (batchMaxFresh now store (normalizedOf addresses) rl).toNat
          (needsFreshOf now store (normalizedOf addresses))
        rcases List.mem_append.1 (hsplit ▸ hnf2) with ht | hd
        · have hpos : 0 < batchMaxFresh now store (normalizedOf addresses)
              rl := by
            rcases lt_or_eq_of_le hmF with hlt | heq
            · exact hlt
            · rw [← heq] at ht
              simp at ht
          exact Or.inl (Or.inr ⟨hpos, mem_take_batchStarts _ _ a ht⟩)
        · exact Or.inr hd

/-- Witness for C3: the amended totality claim at a concrete batch with a
duplicate spelling of the same address. -/
theorem c3_batch_totality_witness :
    inWindowCount sampleNow ⟨[]⟩ ≤ MAX_REQUESTS_PER_HOUR ∧
    ((keysOf (batchGetIdentitiesWithCache sampleNow ["0xA1", "0xa1", "0xb2"]
      emptyStore allMissFc noNames ⟨[]⟩).results).Nodup ∧
    ("0xa1" ∈ keysOf (batchGetIdentitiesWithCache sampleNow
        ["0xA1", "0xa1", "0xb2"] emptyStore allMissFc noNames ⟨[]⟩).results ↔
      "0xa1" ∈ normalizedOf ["0xA1", "0xa1", "0xb2"])) :=
  ⟨by decide,
    c3_batch_totality sampleNow ["0xA1", "0xa1", "0xb2"] emptyStore allMissFc
      noNames ⟨[]⟩ "0xa1" (by decide)⟩

end TopTipners

namespace TopTipners

/-- C7: in a batch resolution, an address whose cached record was written at
the current instant is never classified needs-refresh and never receives a
live provider refresh attempt within the call; and a record older than the
TTL by any positive amount is always classified needs-refresh. -/
theorem c7_cache_freshness_gate (now t : Int) (addresses : List String)
    (store : String → Option CachedIdentity)
    (fcEnv : String → Option FarcasterUser) (ensEnv : String → EnsData)
    (rl : RateLimiter) (a : String) (ci : CachedIdentity)
    (hstore : store a = some ci) :
    (ci.identity_last_updated = some now →
      a ∉ needsFreshOf now store (normalizedOf addresses) ∧
      a ∉ (batchGetIdentitiesWithCache now addresses store fcEnv ensEnv
        rl).attempted) ∧
    (ci.identity_last_updated = some t → CACHE_EXPIRY_MS < now - t →
      a ∈ normalizedOf addresses →
      a ∈ needsFreshOf now store (normalizedOf addresses)) := by
  constructor
  · intro hlu
    have hfresh : isFreshRecord now (store a) = true := by
      rw [hstore]
      simp only [isFreshRecord, hlu]
      have hexp : isCacheExpired now now = false := by
        unfold isCacheExpired
        simp only [decide_eq_false_iff_not]
        simp [CACHE_EXPIRY_MS, CACHE_EXPIRY_HOURS]
      rw [hexp]
      rfl
    have hnot : a ∉ needsFreshOf now store (normalizedOf addresses) := by
      intro hmem
      have h2 := ((mem_needsFresh_iff now store _ a).1 hmem).2
      rw [hfresh] at h2
      exact absurd h2 (by simp)
    refine ⟨hnot, fun hatt => hnot ?_⟩
    exact mem_attempted_batch now addresses store fcEnv ensEnv rl a hatt
  · intro hlu hexp ha
    refine (mem_needsFresh_iff now store _ a).2 ⟨ha, ?_⟩
    rw [hstore]
    simp only [isFreshRecord, hlu]
    have hexp2 : isCacheExpired now t = true := by
      unfold isCacheExpired
      exact decide_eq_true hexp
    rw [hexp2]
    rfl

/-- Witness for C7 at a concrete store: a row written at the current instant
is served from cache and never refreshed; the stale implication is
instantiated (vacuously) at an unrelated timestamp. -/
theorem c7_cache_freshness_gate_witness :
    (fun x => if x = "0xa1" then some (sampleFreshRow "0xa1") else none)
        "0xa1" = some (sampleFreshRow "0xa1") ∧
    (((sampleFreshRow "0xa1").identity_last_updated = some sampleNow →
      "0xa1" ∉ needsFreshOf sampleNow
        (fun x => if x = "0xa1" then some (sampleFreshRow "0xa1") else none)
        (normalizedOf ["0xa1", "0xb2"]) ∧
      "0xa1" ∉ (batchGetIdentitiesWithCache sampleNow ["0xa1", "0xb2"]
        (fun x => if x = "0xa1" then some (sampleFreshRow "0xa1") else none)
        allMissFc noNames ⟨[]⟩).attempted) ∧
    ((sampleFreshRow "0xa1").identity_last_updated = some 0 →
      CACHE_EXPIRY_MS < sampleNow - 0 →
      "0xa1" ∈ normalizedOf ["0xa1", "0xb2"] →
      "0xa1" ∈ needsFreshOf sampleNow
        (fun x => if x = "0xa1" then some (sampleFreshRow "0xa1") else none)
        (normalizedOf ["0xa1", "0xb2"]))) :=
  ⟨rfl,
    c7_cache_freshness_gate sampleNow 0 ["0xa1", "0xb2"]
      (fun x => if x = "0xa1" then some (sampleFreshRow "0xa1") else none)
      allMissFc noNames ⟨[]⟩ "0xa1" (sampleFreshRow "0xa1") rfl⟩

end TopTipners
